import Mathlib

/-!
Verification of the LLM Conversation Gateway (`ai/llm.py`) of concordia-ai.

The development shallowly embeds the gateway: the `Message` data model, the
Django-settings configuration surface, the token counter `_count_token`, the
history truncator `_truncate_history`, the adapter resolver `get_model`, the
stub adapter, and the streaming `make_response` of the OpenAI adapter.

`_count_token` as written raises on every call, so the truncator and the
key-present streaming path raise as well; the `*_src` definitions embed that
faithfully, with the exception propagated.  Alongside them, an idealized
pure/store model (in which the counter is replaced by the value of its
summands) exists solely for two theorems whose truth does not rest on the
idealization: the missing-key failure (raised before the counter is reached)
and the frame property of the truncation loop over a store of Python list
objects, in which slicing and `+`-concatenation allocate fresh addresses so
aliasing and mutation questions are derivable rather than assumed.

The tokenizer (`tiktoken`) is external to the repository, so the length of an
encoded string is abstracted as a parameter `enc : String → Nat` standing for
`fun s => len(encoding.encode(s))`.
-/

namespace Concordia

/-- The `Message` TypedDict of `ai/llm.py`: a role and a content string. -/
inductive Role where
  | system
  | user
  | assistant
deriving DecidableEq

structure Message where
  role : Role
  content : String
deriving DecidableEq

/-- Python exceptions raised by the gateway code. -/
inductive PyError where
  | valueError (msg : String)
  | typeError (msg : String)
deriving DecidableEq

/-- The Django settings attributes the gateway reads via `getattr` /
`hasattr`; `none` models an absent attribute. -/
structure Settings where
  LLM_MODEL : Option String
  OPENAI_MAX_TOKENS : Option Nat
  OPENAI_MODEL : Option String
  OPENAI_KEY : Option String

/-- `OpenAI.max_tokens`: `getattr(conf.settings, "OPENAI_MAX_TOKENS", 8_000)`. -/
def max_tokens (s : Settings) : Nat :=
  s.OPENAI_MAX_TOKENS.getD 8000

/-- `OpenAI.model`: `getattr(conf.settings, "OPENAI_MODEL", "gpt-4.1-mini")`. -/
def model (s : Settings) : String :=
  s.OPENAI_MODEL.getD "gpt-4.1-mini"

/-- `OpenAI.api_key`: returns `settings.OPENAI_KEY` when the attribute exists,
otherwise raises `ValueError("Missing OPENAI_KEY in settings!")`. -/
def api_key (s : Settings) : Except PyError String :=
  match s.OPENAI_KEY with
  | some k => Except.ok k
  | none => Except.error (PyError.valueError "Missing OPENAI_KEY in settings!")

/-- `tokens_per_message = 3` in `OpenAI._count_token` ("Avg. Overhead for a
message"). -/
def tokens_per_message : Nat := 3

/-- `priming = 3` in `OpenAI._count_token` ("The startup token amount"). -/
def priming : Nat := 3

/-- The value of the summands of `OpenAI._count_token`: for each message,
`tokens_per_message + len(encoding.encode(m["content"]))`, summed, plus
`priming`.  The function as written never returns this (or any) value: it
raises on every call, which `count_token_src` below embeds and C2 records.
This definition names the count only so that the idealized loop models can
be written; every claim about what the truncation or the stream actually
returns is settled against the faithful `*_src` definitions further down,
and the idealized models are engaged only where the idealization is not
load-bearing (see the section comment before `truncate_loop_src`). -/
def count_token (enc : String → Nat) (messages : List Message) : Nat :=
  (messages.map (fun m => tokens_per_message + enc m.content)).sum + priming

/-- A Python value as far as `OpenAI._count_token`'s `sum(... + priming)`
expression is concerned: an int or a generator of ints. -/
inductive PyVal where
  | int (n : Nat)
  | gen (items : List Nat)

/-- Python `+` on such values: int + int adds; a generator supports no `+`
with an int (neither `generator.__add__` nor `int.__radd__` applies), so the
expression raises `TypeError`. -/
def pyAdd : PyVal → PyVal → Except PyError PyVal
  | PyVal.int a, PyVal.int b => Except.ok (PyVal.int (a + b))
  | _, _ =>
      Except.error (PyError.typeError "unsupported operand type(s) for +")

/-- Python `sum` applied to such a value: sums a generator, rejects an int
(not iterable). -/
def pySum : PyVal → Except PyError Nat
  | PyVal.int _ => Except.error (PyError.typeError "int object is not iterable")
  | PyVal.gen items => Except.ok items.sum

/-- `OpenAI._count_token` as written: it builds the generator of per-message
counts, adds the int `priming` to the generator object, and passes the result
to `sum`.  The `+` raises `TypeError` for every input, so the function never
returns a count.  (In the real interpreter the preceding line
`tiktoken.get_encoding("cli100k_base")` already raises `ValueError`, since no
encoding of that name is registered — the registered name is `cl100k_base`;
this model abstracts the encoding lookup as `enc` and shows the function
raises even granting a successful lookup.) -/
def count_token_src (enc : String → Nat) (messages : List Message) :
    Except PyError Nat := do
  let perMessage : PyVal :=
    PyVal.gen (messages.map (fun m => tokens_per_message + enc m.content))
  let summand ← pyAdd perMessage (PyVal.int priming)
  pySum summand

/-- The `while` loop of `OpenAI._truncate_history`.  `messages` is the list
built once, before the loop, by `[system_msg] + trimmed_history + [user_msg]`:
in Python, list concatenation with `+` allocates a fresh list, so the
subsequent `trimmed_history.pop(0)` calls do not change `messages` (the
source comment claims the opposite; the store-based model
`truncate_loop_st` below derives this non-aliasing from the allocation
semantics).  Hence the tested count is the same on every iteration, which is
why `messages` stays fixed across the recursion here. -/
def truncate_loop (enc : String → Nat) (maxTokens : Nat)
    (messages : List Message) : List Message → List Message
  | [] => if maxTokens ≤ count_token enc messages then [] else []
  | a :: rest =>
    if maxTokens ≤ count_token enc messages then
      truncate_loop enc maxTokens messages rest
    else a :: rest

/-- `OpenAI._truncate_history` as a pure function over the idealized
counter `count_token`.  NOT the source's behavior: the real function raises
at its first loop test (`truncate_history_src` is the faithful embedding).
This definition exists only as the value-level companion of the store model
used for the frame property (C10). -/
def truncate_history (enc : String → Nat) (maxTokens : Nat) (context : String)
    (history : List Message) (prompt : String) : List Message :=
  let system_msg : Message := ⟨Role.system, context⟩
  let user_msg : Message := ⟨Role.user, prompt⟩
  let trimmed_history := history
  let messages := [system_msg] ++ trimmed_history ++ [user_msg]
  truncate_loop enc maxTokens messages trimmed_history

/-! ### A store of Python list objects

`_truncate_history` manipulates three list objects: the caller's `history`,
the slice copy `trimmed_history = history[:]`, and
`messages = [system_msg] + trimmed_history + [user_msg]`.  The source comment
asserts that `messages` shares a reference with `trimmed_history`, so that
`trimmed_history.pop(0)` would shrink `messages`.  To settle that question
rather than assume its answer, this model gives each Python list object an
address in a store; slicing and `+`-concatenation allocate fresh addresses
(CPython semantics), and `pop(0)` writes through the list's address. -/

structure Store where
  cells : List (List Message)

/-- Dereference a list address (out-of-range addresses read as `[]`; all
theorems only use in-range addresses). -/
def Store.read (s : Store) (a : Nat) : List Message :=
  s.cells.getD a []

/-- In-place update of the list object at address `a`. -/
def Store.write (s : Store) (a : Nat) (v : List Message) : Store :=
  ⟨s.cells.set a v⟩

/-- Allocate a fresh list object holding `v`, returning the new store and the
fresh address. -/
def Store.alloc (s : Store) (v : List Message) : Store × Nat :=
  (⟨s.cells ++ [v]⟩, s.cells.length)

/-- The `while` loop of `OpenAI._truncate_history` over the store:
`msgsAddr` is the address of the `messages` list, `trimmedAddr` the address
of `trimmed_history`; `trimmed_history.pop(0)` is a write of the tail through
`trimmedAddr`.  The loop is fueled; the callers supply fuel exceeding the
length of the trimmed list, which the bridge lemma shows is always enough. -/
def truncate_loop_st (enc : String → Nat) (maxTokens : Nat)
    (msgsAddr trimmedAddr : Nat) : Nat → Store → Store × List Message
  | 0, s => (s, s.read trimmedAddr)
  | fuel + 1, s =>
    if maxTokens ≤ count_token enc (s.read msgsAddr) then
      match s.read trimmedAddr with
      | [] => (s, [])
      | _ :: rest =>
          truncate_loop_st enc maxTokens msgsAddr trimmedAddr fuel
            (s.write trimmedAddr rest)
    else (s, s.read trimmedAddr)

/-- `OpenAI._truncate_history` over the store.  The caller's history lives at
`histAddr`; `history[:]` allocates the copy, and the `+` concatenation
allocates the candidate `messages` list. -/
def truncate_history_st (enc : String → Nat) (maxTokens : Nat)
    (context : String) (histAddr : Nat) (prompt : String) (s0 : Store) :
    Store × List Message :=
  let system_msg : Message := ⟨Role.system, context⟩
  let user_msg : Message := ⟨Role.user, prompt⟩
  let alloc1 := s0.alloc (s0.read histAddr)
  let s1 := alloc1.1
  let trimmedAddr := alloc1.2
  let alloc2 := s1.alloc ([system_msg] ++ s1.read trimmedAddr ++ [user_msg])
  let s2 := alloc2.1
  let msgsAddr := alloc2.2
  truncate_loop_st enc maxTokens msgsAddr trimmedAddr
    ((s2.read trimmedAddr).length + 1) s2

/-! ### Streaming (`OpenAI.make_response`) -/

/-- The `delta` object of one streamed choice: its `content` attribute may be
absent (`None`). -/
structure ChunkDelta where
  content : Option String
deriving DecidableEq

/-- One incremental unit of the stream, reduced to the `choices[0].delta`
field the code reads; the `delta` itself may be `None`. -/
structure StreamChunk where
  delta : Option ChunkDelta
deriving DecidableEq

/-- The `for choice in ...: if delta and delta.content: yield delta.content`
loop: a delta is yielded when the `delta` object is truthy (not `None`) and
its `content` is truthy (not `None` and not the empty string). -/
def stream_yield : List StreamChunk → List String
  | [] => []
  | chunk :: rest =>
    match chunk.delta with
    | none => stream_yield rest
    | some d =>
      match d.content with
      | none => stream_yield rest
      | some c => if c = "" then stream_yield rest else c :: stream_yield rest

/-- The text a single unit contributes: its delta's content when present and
non-empty, nothing otherwise.  Used to state what `stream_yield` keeps. -/
def delta_text (chunk : StreamChunk) : Option String :=
  match chunk.delta with
  | none => none
  | some d =>
    match d.content with
    | none => none
    | some c => if c = "" then none else some c

/-- Externally visible network actions of `OpenAI.make_response`:
constructing the `openai.Client` and opening the streaming request (with the
message payload it sends). -/
inductive NetEffect where
  | clientConstructed
  | streamOpened (messagesSent : List Message)
deriving DecidableEq

/-- `OpenAI.make_response` once consumed, with the counter idealized:
evaluating `self.api_key` for the `openai.Client(...)` argument either
raises (nothing constructed, nothing yielded) or generation proceeds.
Returns (network effects, yielded chunks, terminal exception); `stream` is
the sequence of units the provider delivers.  The missing-key branch is
faithful — it raises before the counter is ever reached — and is the only
branch any theorem engages (C5); the key-present branch idealizes past the
truncation raise, and the faithful key-present behavior is
`OpenAI_make_response_src` below. -/
def OpenAI_make_response (enc : String → Nat) (settings : Settings)
    (stream : List StreamChunk) (context : String) (history : List Message)
    (prompt : String) : List NetEffect × List String × Option PyError :=
  match api_key settings with
  | Except.error e => ([], [], some e)
  | Except.ok _ =>
    let system_msg : Message := ⟨Role.system, context⟩
    let user_msg : Message := ⟨Role.user, prompt⟩
    let trimmed_history :=
      truncate_history enc (max_tokens settings) context history prompt
    ([NetEffect.clientConstructed,
      NetEffect.streamOpened ([system_msg] ++ trimmed_history ++ [user_msg])],
     stream_yield stream, none)

/-- `OpenAI.make_response` over the store, with the caller's history passed
by address, so that mutation of the caller's list would be observable.  Like
`OpenAI_make_response`, the key-present branch idealizes the counter; it is
engaged only by the frame property (C10), for which the idealized run is an
over-approximation of the real one: the real execution raises at the first
loop test, i.e. performs a prefix of the writes modeled here, all of which
target only the fresh copy's address. -/
def OpenAI_make_response_st (enc : String → Nat) (settings : Settings)
    (stream : List StreamChunk) (context : String) (histAddr : Nat)
    (prompt : String) (s0 : Store) :
    Store × List NetEffect × List String × Option PyError :=
  match api_key settings with
  | Except.error e => (s0, [], [], some e)
  | Except.ok _ =>
    let system_msg : Message := ⟨Role.system, context⟩
    let user_msg : Message := ⟨Role.user, prompt⟩
    let r := truncate_history_st enc (max_tokens settings) context histAddr
      prompt s0
    (r.1, [NetEffect.clientConstructed,
      NetEffect.streamOpened ([system_msg] ++ r.2 ++ [user_msg])],
     stream_yield stream, none)

/-! ### Stub adapter and resolver -/

/-- What `Stub.make_response` does, step by step: `time.sleep` calls and
`yield`ed chunks. -/
inductive StubEvent where
  | sleep (seconds : Nat)
  | chunk (text : String)
deriving DecidableEq

/-- `Stub.make_response`: sleep 1s, yield `"Hello "`, sleep 2s, yield
`"World!"`; the arguments are ignored. -/
def Stub_make_response (context : String) (history : List Message)
    (prompt : String) : List StubEvent :=
  [StubEvent.sleep 1, StubEvent.chunk "Hello ",
   StubEvent.sleep 2, StubEvent.chunk "World!"]

/-- The chunks a stub event sequence yields. -/
def stub_yields (events : List StubEvent) : List String :=
  events.filterMap fun e =>
    match e with
    | StubEvent.chunk s => some s
    | StubEvent.sleep _ => none

/-- Which adapter class `get_model` instantiates. -/
inductive AdapterKind where
  | stub
  | openai
deriving DecidableEq

/-- `get_model`: read `LLM_MODEL` (default `"Stub"`); return `Stub()` for
`"Stub"`, `OpenAI()` for `"OpenAI"`, and fall off the end (Python `None`)
for anything else. -/
def get_model (settings : Settings) : Option AdapterKind :=
  let model := settings.LLM_MODEL.getD "Stub"
  if model = "Stub" then some AdapterKind.stub
  else if model = "OpenAI" then some AdapterKind.openai
  else none

/-! ### The faithful, raising truncation and streaming

`_count_token` raises on every call (C2), and `_truncate_history` evaluates
it in its first `while` test, so the source truncation never returns a
history; `make_response` with a key configured constructs the client and then
raises inside `_truncate_history`, before `completions.create` is reached.
The `*_src` definitions below embed that behavior with the exception
propagated.  The earlier pure and store definitions idealize the counter and
remain only for theorems where that idealization is not load-bearing: the
missing-key branch of `OpenAI_make_response` (C5) raises before the counter
is ever reached, and the frame property of the store model (C10) is a
statement about which addresses the loop writes, which holds a fortiori of
the real, shorter (raising) execution. -/

/-- The `while` loop of `_truncate_history` with the exception of
`_count_token` propagated: each iteration first evaluates
`self._count_token(messages)`, which raises (see `count_token_src`), so the
loop aborts at its first test; the `if`/pop structure is kept so the
embedding mirrors the source line for line. -/
def truncate_loop_src (enc : String → Nat) (maxTokens : Nat)
    (messages : List Message) : List Message → Except PyError (List Message)
  | [] => do
      let c ← count_token_src enc messages
      if maxTokens ≤ c then pure [] else pure []
  | a :: rest => do
      let c ← count_token_src enc messages
      if maxTokens ≤ c then truncate_loop_src enc maxTokens messages rest
      else pure (a :: rest)

/-- `OpenAI._truncate_history` as the source executes it: build the system
and user messages, copy the history, build the candidate list once, run the
loop; the first `_count_token` call raises and the exception propagates to
the caller. -/
def truncate_history_src (enc : String → Nat) (maxTokens : Nat)
    (context : String) (history : List Message) (prompt : String) :
    Except PyError (List Message) :=
  let system_msg : Message := ⟨Role.system, context⟩
  let user_msg : Message := ⟨Role.user, prompt⟩
  let trimmed_history := history
  let messages := [system_msg] ++ trimmed_history ++ [user_msg]
  truncate_loop_src enc maxTokens messages trimmed_history

/-- `OpenAI.make_response` as the source executes it: evaluate `api_key` for
the `Client(...)` argument (may raise before construction), construct the
client, truncate — which raises, see `truncate_history_src`, and the
exception propagates with no stream opened and no chunk yielded — and only
then (never reached as written) open the stream and yield the filtered
deltas. -/
def OpenAI_make_response_src (enc : String → Nat) (settings : Settings)
    (stream : List StreamChunk) (context : String) (history : List Message)
    (prompt : String) : List NetEffect × List String × Option PyError :=
  match api_key settings with
  | Except.error e => ([], [], some e)
  | Except.ok _ =>
    match truncate_history_src enc (max_tokens settings) context history
        prompt with
    | Except.error e => ([NetEffect.clientConstructed], [], some e)
    | Except.ok trimmed_history =>
        ([NetEffect.clientConstructed,
          NetEffect.streamOpened ([⟨Role.system, context⟩] ++
            trimmed_history ++ [⟨Role.user, prompt⟩])],
         stream_yield stream, none)

/-- The `while` loop of `_truncate_history` with the token count of the
candidate list abstracted as an arbitrary total function of the list:
whatever value any counter assigns to `messages`, the candidate list is
built once before the loop, so the tested value is the same on every
iteration.  Used to state what the loop's structure forces independently of
the broken counter. -/
def truncate_loop_gen (tokenCount : List Message → Nat) (maxTokens : Nat)
    (messages : List Message) : List Message → List Message
  | [] => if maxTokens ≤ tokenCount messages then [] else []
  | a :: rest =>
    if maxTokens ≤ tokenCount messages then
      truncate_loop_gen tokenCount maxTokens messages rest
    else a :: rest

/-! ## Theorems -/

theorem truncate_loop_eq (enc : String → Nat) (maxTokens : Nat)
    (messages : List Message) (trimmed : List Message) :
    truncate_loop enc maxTokens messages trimmed =
      if maxTokens ≤ count_token enc messages then [] else trimmed := by
  induction trimmed with
  | nil =>
      simp only [truncate_loop]
  | cons a rest ih =>
      simp only [truncate_loop]
      split <;> simp_all

/-- Closed form of the truncation: because the tested candidate list is built
once, the result is the whole history when the full candidate fits strictly
under the budget, and empty otherwise. -/
theorem truncate_history_eq (enc : String → Nat) (maxTokens : Nat)
    (context : String) (history : List Message) (prompt : String) :
    truncate_history enc maxTokens context history prompt =
      if maxTokens ≤ count_token enc
          ([⟨Role.system, context⟩] ++ history ++ [⟨Role.user, prompt⟩]) then
        ([] : List Message)
      else history := by
  unfold truncate_history
  exact truncate_loop_eq ..

/-- The faithful loop aborts at its first test, whatever the working copy
holds: the `_count_token` call in the `while` condition raises. -/
theorem truncate_loop_src_err (enc : String → Nat) (maxTokens : Nat)
    (messages : List Message) :
    ∀ trimmed, truncate_loop_src enc maxTokens messages trimmed =
      Except.error (PyError.typeError "unsupported operand type(s) for +") := by
  intro trimmed
  cases trimmed <;> rfl

/-- Unfolding of the faithful truncation wrapper. -/
theorem truncate_history_src_eq (enc : String → Nat) (maxTokens : Nat)
    (context : String) (history : List Message) (prompt : String) :
    truncate_history_src enc maxTokens context history prompt =
      truncate_loop_src enc maxTokens
        ([⟨Role.system, context⟩] ++ history ++ [⟨Role.user, prompt⟩])
        history := rfl

/-- The faithful truncation raises for every input. -/
theorem truncate_history_src_err (enc : String → Nat) (maxTokens : Nat)
    (context : String) (history : List Message) (prompt : String) :
    truncate_history_src enc maxTokens context history prompt =
      Except.error (PyError.typeError "unsupported operand type(s) for +") := by
  rw [truncate_history_src_eq]
  exact truncate_loop_src_err enc maxTokens
    ([⟨Role.system, context⟩] ++ history ++ [⟨Role.user, prompt⟩]) history

/-- Closed form of the counter-abstracted loop: because the tested candidate
list is built once, the result is the whole working copy or empty, for every
token-count function. -/
theorem truncate_loop_gen_eq (tokenCount : List Message → Nat)
    (maxTokens : Nat) (messages : List Message) (trimmed : List Message) :
    truncate_loop_gen tokenCount maxTokens messages trimmed =
      if maxTokens ≤ tokenCount messages then [] else trimmed := by
  induction trimmed with
  | nil => simp only [truncate_loop_gen]
  | cons a rest ih =>
      simp only [truncate_loop_gen]
      split <;> simp_all

theorem getD_set_ne {α : Type} (v d : α) :
    ∀ (l : List α) (a b : Nat), a ≠ b → (l.set b v).getD a d = l.getD a d := by
  intro l
  induction l with
  | nil => intro a b _; rfl
  | cons x xs ih =>
      intro a b hab
      cases b with
      | zero =>
          cases a with
          | zero => exact absurd rfl hab
          | succ a => simp [List.getD_cons_succ]
      | succ b =>
          cases a with
          | zero => simp [List.getD_cons_zero]
          | succ a =>
              simp only [List.set_cons_succ, List.getD_cons_succ]
              exact ih a b (fun h => hab (congrArg Nat.succ h))

theorem getD_set_self {α : Type} (v d : α) :
    ∀ (l : List α) (b : Nat), b < l.length → (l.set b v).getD b d = v := by
  intro l
  induction l with
  | nil => intro b hb; exact absurd hb (Nat.not_lt_zero b)
  | cons x xs ih =>
      intro b hb
      cases b with
      | zero => rfl
      | succ b =>
          simp only [List.set_cons_succ, List.getD_cons_succ]
          exact ih b (Nat.lt_of_succ_lt_succ hb)

theorem Store.read_write_ne (s : Store) (a b : Nat) (v : List Message)
    (h : a ≠ b) : (s.write b v).read a = s.read a :=
  getD_set_ne v [] s.cells a b h

theorem Store.read_write_self (s : Store) (b : Nat) (v : List Message)
    (h : b < s.cells.length) : (s.write b v).read b = v :=
  getD_set_self v [] s.cells b h

theorem Store.length_write (s : Store) (b : Nat) (v : List Message) :
    (s.write b v).cells.length = s.cells.length :=
  List.length_set s.cells b v

theorem Store.read_alloc_old (s : Store) (v : List Message) (a : Nat)
    (h : a < s.cells.length) : (s.alloc v).1.read a = s.read a :=
  List.getD_append s.cells [v] [] a h

theorem Store.read_alloc_new (s : Store) (v : List Message) :
    (s.alloc v).1.read (s.alloc v).2 = v := by
  show (s.cells ++ [v]).getD s.cells.length [] = v
  rw [List.getD_append_right s.cells [v] [] s.cells.length (Nat.le_refl _),
    Nat.sub_self]
  rfl

/-- The loop writes only through `trimmedAddr`: every other address reads the
same before and after. -/
theorem truncate_loop_st_read_ne (enc : String → Nat) (maxTokens : Nat)
    (msgsAddr trimmedAddr : Nat) (a : Nat) (ha : a ≠ trimmedAddr) :
    ∀ (fuel : Nat) (s : Store),
      (truncate_loop_st enc maxTokens msgsAddr trimmedAddr fuel s).1.read a =
        s.read a := by
  intro fuel
  induction fuel with
  | zero => intro s; rfl
  | succ fuel ih =>
      intro s
      simp only [truncate_loop_st]
      split
      · cases hr : s.read trimmedAddr with
        | nil => rfl
        | cons m rest =>
            rw [ih (s.write trimmedAddr rest)]
            exact s.read_write_ne a trimmedAddr rest ha
      · rfl

/-- Bridge between the store loop and the pure loop: given enough fuel and
distinct addresses for `messages` and `trimmed_history`, the store loop
returns exactly what the pure loop (with the candidate list read once)
returns. -/
theorem truncate_loop_st_value (enc : String → Nat) (maxTokens : Nat)
    (msgsAddr trimmedAddr : Nat) (hne : msgsAddr ≠ trimmedAddr) :
    ∀ (fuel : Nat) (s : Store), trimmedAddr < s.cells.length →
      (s.read trimmedAddr).length < fuel →
      (truncate_loop_st enc maxTokens msgsAddr trimmedAddr fuel s).2 =
        truncate_loop enc maxTokens (s.read msgsAddr) (s.read trimmedAddr) := by
  intro fuel
  induction fuel with
  | zero =>
      intro s _ hlen
      exact absurd hlen (Nat.not_lt_zero _)
  | succ fuel ih =>
      intro s hlt hlen
      simp only [truncate_loop_st]
      split
      next hcond =>
        cases hr : s.read trimmedAddr with
        | nil => simp [truncate_loop, *]
        | cons m rest =>
            have hmsgs : (s.write trimmedAddr rest).read msgsAddr =
                s.read msgsAddr :=
              s.read_write_ne msgsAddr trimmedAddr rest hne
            have htrim : (s.write trimmedAddr rest).read trimmedAddr = rest :=
              s.read_write_self trimmedAddr rest hlt
            have hlt' : trimmedAddr < (s.write trimmedAddr rest).cells.length := by
              rw [Store.length_write]; exact hlt
            have hlen' : ((s.write trimmedAddr rest).read trimmedAddr).length
                < fuel := by
              rw [htrim]
              have hstep := hlen
              rw [hr] at hstep
              exact Nat.lt_of_succ_lt_succ hstep
            rw [ih (s.write trimmedAddr rest) hlt' hlen', hmsgs, htrim]
            conv_rhs => rw [truncate_loop]
            rw [if_pos hcond]
      next hcond =>
        cases hr : s.read trimmedAddr with
        | nil => simp [truncate_loop, *]
        | cons m rest =>
            conv_rhs => rw [truncate_loop]
            rw [if_neg hcond]

/-- The store-based `_truncate_history` computes the same value as the pure
embedding: the non-aliasing of `messages` and `trimmed_history` is derived
from the allocation semantics, not assumed. -/
theorem truncate_history_st_value (enc : String → Nat) (maxTokens : Nat)
    (context : String) (histAddr : Nat) (prompt : String) (s0 : Store) :
    (truncate_history_st enc maxTokens context histAddr prompt s0).2 =
      truncate_history enc maxTokens context (s0.read histAddr) prompt := by
  unfold truncate_history_st
  set hist := s0.read histAddr with hh
  have h1 : (s0.alloc hist).1.read (s0.alloc hist).2 = hist :=
    s0.read_alloc_new hist
  set s1 := (s0.alloc hist).1 with hs1
  set trimmedAddr := (s0.alloc hist).2 with ht
  set msgs := [(⟨Role.system, context⟩ : Message)] ++ s1.read trimmedAddr ++
    [(⟨Role.user, prompt⟩ : Message)] with hm
  have hlen1 : s1.cells.length = s0.cells.length + 1 := by
    simp [hs1, Store.alloc]
  have htlt : trimmedAddr < s1.cells.length := by
    rw [hlen1]
    exact Nat.lt_succ_self _
  have h2old : (s1.alloc msgs).1.read trimmedAddr = s1.read trimmedAddr :=
    s1.read_alloc_old msgs trimmedAddr htlt
  have h2new : (s1.alloc msgs).1.read (s1.alloc msgs).2 = msgs :=
    s1.read_alloc_new msgs
  have hne : (s1.alloc msgs).2 ≠ trimmedAddr := by
    show s1.cells.length ≠ trimmedAddr
    rw [hlen1]
    show s0.cells.length + 1 ≠ s0.cells.length
    exact Nat.succ_ne_self _
  have htlt2 : trimmedAddr < (s1.alloc msgs).1.cells.length := by
    show trimmedAddr < (s1.cells ++ [msgs]).length
    rw [List.length_append]
    exact Nat.lt_of_lt_of_le htlt (Nat.le_add_right _ _)
  rw [truncate_loop_st_value enc maxTokens (s1.alloc msgs).2 trimmedAddr hne
    _ (s1.alloc msgs).1 htlt2 (by rw [h2old]; exact Nat.lt_succ_self _)]
  rw [h2new, h2old, h1]
  unfold truncate_history
  rw [hm, h1]

/-- The store-based `_truncate_history` leaves every pre-existing list object
unchanged: it only ever writes through the fresh copy's address. -/
theorem truncate_history_st_read (enc : String → Nat) (maxTokens : Nat)
    (context : String) (histAddr : Nat) (prompt : String) (s0 : Store)
    (a : Nat) (ha : a < s0.cells.length) :
    (truncate_history_st enc maxTokens context histAddr prompt s0).1.read a =
      s0.read a := by
  unfold truncate_history_st
  set hist := s0.read histAddr with hh
  set s1 := (s0.alloc hist).1 with hs1
  set trimmedAddr := (s0.alloc hist).2 with ht
  have hane : a ≠ trimmedAddr := by
    show a ≠ s0.cells.length
    exact Nat.ne_of_lt ha
  set msgs := [(⟨Role.system, context⟩ : Message)] ++ s1.read trimmedAddr ++
    [(⟨Role.user, prompt⟩ : Message)] with hm
  rw [truncate_loop_st_read_ne enc maxTokens (s1.alloc msgs).2 trimmedAddr a
    hane]
  have hlt1 : a < s1.cells.length := by
    show a < (s0.cells ++ [hist]).length
    rw [List.length_append]
    exact Nat.lt_of_lt_of_le ha (Nat.le_add_right _ _)
  rw [s1.read_alloc_old msgs a hlt1]
  exact s0.read_alloc_old hist a ha

/-- `stream_yield` keeps exactly the present-and-non-empty deltas, in order. -/
theorem stream_yield_eq_filterMap (stream : List StreamChunk) :
    stream_yield stream = stream.filterMap delta_text := by
  induction stream with
  | nil => rfl
  | cons chunk rest ih =>
      rw [List.filterMap_cons]
      cases hd : chunk.delta with
      | none =>
          simp only [stream_yield, delta_text, hd]
          exact ih
      | some d =>
          cases hc : d.content with
          | none =>
              simp only [stream_yield, delta_text, hd, hc]
              exact ih
          | some c =>
              by_cases hce : c = ""
              · simp only [stream_yield, delta_text, hd, hc, if_pos hce]
                exact ih
              · simp only [stream_yield, delta_text, hd, hc, if_neg hce]
                rw [ih]

/-- A unit's kept text is never the empty string. -/
theorem delta_text_ne_empty (u : StreamChunk) (c : String)
    (h : delta_text u = some c) : c ≠ "" := by
  cases hd : u.delta with
  | none =>
      simp only [delta_text, hd] at h
      exact Option.noConfusion h
  | some d =>
      cases hc : d.content with
      | none =>
          simp only [delta_text, hd, hc] at h
          exact Option.noConfusion h
      | some s =>
          by_cases hs : s = ""
          · simp only [delta_text, hd, hc, if_pos hs] at h
            exact Option.noConfusion h
          · simp only [delta_text, hd, hc, if_neg hs] at h
            rw [← Option.some.inj h]
            exact hs

/-! ## Claim theorems -/

/-- C1 (code bug): the claim says the history returned by
`_truncate_history`, re-assembled with the system-context and user-prompt
messages, has an estimated token count strictly under the budget, or is
empty.  The code returns no history at all: for every context, history,
prompt and budget, the first `while` test raises inside `_count_token`
(see C2) and the exception propagates — so in particular no returned
history ever fits. -/
theorem truncation_never_returns (enc : String → Nat) (B : Nat)
    (context : String) (history : List Message) (prompt : String) :
    truncate_history_src enc B context history prompt =
      Except.error (PyError.typeError "unsupported operand type(s) for +") :=
  truncate_history_src_err enc B context history prompt

/-- C2: the claim says `_count_token` returns the sum of per-message
overheads and tokenized lengths plus the priming constant, with no exception.
The code instead raises on every input: the expression adds the int `priming`
to the generator object before `sum`, a `TypeError` (and the preceding
`get_encoding("cli100k_base")` names an encoding that does not exist).  This
theorem evaluates the counter as written: it raises for every encoder and
every message list, including the failing input `[]`. -/
theorem count_token_src_always_raises (enc : String → Nat)
    (messages : List Message) :
    count_token_src enc messages =
      Except.error (PyError.typeError "unsupported operand type(s) for +") :=
  rfl

/-- C3 (code bug): the claim says the sequence returned by
`_truncate_history` is a contiguous suffix of the input history.  No suffix
— no sequence at all — is ever returned: for every input the function raises
at its first loop test, so no `H` is both its result and a suffix of the
history. -/
theorem no_suffix_ever_returned (enc : String → Nat) (B : Nat)
    (context : String) (history : List Message) (prompt : String) :
    ¬ ∃ H, truncate_history_src enc B context history prompt = Except.ok H ∧
      List.IsSuffix H history := by
  rintro ⟨H, hok, _⟩
  rw [truncate_history_src_err enc B context history prompt] at hok
  exact Except.noConfusion hok

/-- C4 (counterexample): at a concrete input, `_truncate_history` returns
neither a copy of the entire input history nor the empty sequence — it
returns nothing: the first loop test raises inside `_count_token`. -/
theorem truncation_all_or_nothing_cex :
    truncate_history_src (fun s => s.length) 8000 "ctx"
        [Message.mk Role.user "hi"] "p" ≠
      Except.ok [Message.mk Role.user "hi"] ∧
    truncate_history_src (fun s => s.length) 8000 "ctx"
        [Message.mk Role.user "hi"] "p" ≠ Except.ok [] := by
  have herr : truncate_history_src (fun s => s.length) 8000 "ctx"
      [Message.mk Role.user "hi"] "p" =
      Except.error (PyError.typeError "unsupported operand type(s) for +") :=
    truncate_history_src_err (fun s => s.length) 8000 "ctx"
      [Message.mk Role.user "hi"] "p"
  constructor
  · intro hok
    rw [herr] at hok
    exact Except.noConfusion hok
  · intro hok
    rw [herr] at hok
    exact Except.noConfusion hok

/-- C4 (amended): as written, `_truncate_history` returns nothing — its
first loop test raises through `_count_token` and the exception propagates.
The structural half of the claim stands, independently of the counter: the
candidate `messages` list is a fresh concatenation built once before the
loop, so for every token-count function the tested value never changes
across iterations, and the loop either exits on its first test keeping the
working copy whole or drains it completely — the full copy or the empty
list, never a proper non-empty suffix. -/
theorem truncation_all_or_nothing_amended (enc : String → Nat)
    (tokenCount : List Message → Nat) (B : Nat) (context : String)
    (history : List Message) (prompt : String)
    (messages trimmed : List Message) :
    truncate_history_src enc B context history prompt =
      Except.error (PyError.typeError "unsupported operand type(s) for +") ∧
    (truncate_loop_gen tokenCount B messages trimmed = trimmed ∨
     truncate_loop_gen tokenCount B messages trimmed = []) := by
  constructor
  · exact truncate_history_src_err enc B context history prompt
  · rw [truncate_loop_gen_eq]
    split
    · exact Or.inr rfl
    · exact Or.inl rfl

/-- C5: when `OPENAI_KEY` is absent from settings, consuming
`OpenAI.make_response` raises the `ValueError` of the `api_key` property
while evaluating the `openai.Client(...)` argument: no network effect occurs
(no client constructed, no stream opened) and zero chunks are yielded,
whatever the stream would have delivered. -/
theorem missing_key_fails_eagerly (enc : String → Nat) (settings : Settings)
    (stream : List StreamChunk) (context : String) (history : List Message)
    (prompt : String) (h : settings.OPENAI_KEY = none) :
    OpenAI_make_response enc settings stream context history prompt =
      ([], [], some (PyError.valueError "Missing OPENAI_KEY in settings!")) := by
  simp only [OpenAI_make_response, api_key, h]

theorem missing_key_fails_eagerly_witness :
    (Settings.mk none none none none).OPENAI_KEY = none ∧
    OpenAI_make_response (fun s => s.length) (Settings.mk none none none none)
        [] "ctx" [] "hi" =
      ([], [], some (PyError.valueError "Missing OPENAI_KEY in settings!")) :=
  ⟨rfl, missing_key_fails_eagerly (fun s => s.length)
    (Settings.mk none none none none) [] "ctx" [] "hi" rfl⟩

/-- C6 (code bug): the claim says the present-and-non-empty deltas of the
received units are yielded in order.  With a key configured, consuming
`make_response` constructs the client and then raises inside
`_truncate_history` (see C2) before `completions.create` is reached: no
stream is opened and zero chunks are yielded, whatever units the provider
would have delivered — in the claim's five-unit scenario, zero chunks
instead of four. -/
theorem make_response_key_present_no_chunks (enc : String → Nat)
    (m1 : Option String) (m2 : Option Nat) (m3 : Option String) (k : String)
    (stream : List StreamChunk) (context : String) (history : List Message)
    (prompt : String) :
    OpenAI_make_response_src enc (Settings.mk m1 m2 m3 (some k)) stream
        context history prompt =
      ([NetEffect.clientConstructed], [],
       some (PyError.typeError "unsupported operand type(s) for +")) := by
  have herr : truncate_history_src enc
      (max_tokens (Settings.mk m1 m2 m3 (some k))) context history prompt =
      Except.error (PyError.typeError "unsupported operand type(s) for +") :=
    truncate_history_src_err enc (max_tokens (Settings.mk m1 m2 m3 (some k)))
      context history prompt
  simp only [OpenAI_make_response_src, api_key, herr]

/-- C7: `get_model` maps `"Stub"` to the stub adapter and `"OpenAI"` to the
OpenAI adapter; every other configured value resolves to no adapter (Python
`None`, not an exception), and an absent `LLM_MODEL` setting defaults to the
stub adapter. -/
theorem get_model_resolution (settings : Settings) :
    (settings.LLM_MODEL = some "Stub" →
      get_model settings = some AdapterKind.stub) ∧
    (settings.LLM_MODEL = some "OpenAI" →
      get_model settings = some AdapterKind.openai) ∧
    (∀ v, settings.LLM_MODEL = some v → v ≠ "Stub" → v ≠ "OpenAI" →
      get_model settings = none) ∧
    (settings.LLM_MODEL = none →
      get_model settings = some AdapterKind.stub) := by
  refine ⟨fun h => ?_, fun h => ?_, fun v h hv1 hv2 => ?_, fun h => ?_⟩
  · simp [get_model, h]
  · simp [get_model, h]
  · simp only [get_model, h, Option.getD_some]
    rw [if_neg hv1, if_neg hv2]
  · simp [get_model, h]

theorem get_model_resolution_witness :
    get_model (Settings.mk (some "Stub") none none none) =
      some AdapterKind.stub ∧
    get_model (Settings.mk (some "OpenAI") none none none) =
      some AdapterKind.openai ∧
    get_model (Settings.mk (some "Gemini") none none none) = none ∧
    get_model (Settings.mk none none none none) = some AdapterKind.stub :=
  ⟨(get_model_resolution (Settings.mk (some "Stub") none none none)).1 rfl,
   (get_model_resolution (Settings.mk (some "OpenAI") none none none)).2.1 rfl,
   (get_model_resolution (Settings.mk (some "Gemini") none none none)).2.2.1
     "Gemini" rfl (by decide) (by decide),
   (get_model_resolution (Settings.mk none none none none)).2.2.2 rfl⟩

/-- C8: `Stub.make_response` yields exactly `"Hello "` then `"World!"` in
that order for every argument triple, and two calls with possibly different
arguments produce identical event sequences. -/
theorem stub_fixed_sequence (context : String) (history : List Message)
    (prompt : String) (context2 : String) (history2 : List Message)
    (prompt2 : String) :
    stub_yields (Stub_make_response context history prompt) =
      ["Hello ", "World!"] ∧
    Stub_make_response context history prompt =
      Stub_make_response context2 history2 prompt2 :=
  ⟨rfl, rfl⟩

/-- C9 (code bug): the claim says truncating an earlier truncation result
with the same context, prompt and budget returns it unchanged.  In the code
the claim's hypothesis is never satisfiable and its conclusion never holds:
no `H` is ever the result of `_truncate_history` (the first conjunct), and
truncating any candidate `H` raises instead of returning `H` unchanged (the
second conjunct). -/
theorem retruncation_raises (enc : String → Nat) (B : Nat)
    (context : String) (prompt : String) (history H : List Message) :
    truncate_history_src enc B context history prompt ≠ Except.ok H ∧
    truncate_history_src enc B context H prompt =
      Except.error (PyError.typeError "unsupported operand type(s) for +") := by
  constructor
  · intro hok
    rw [truncate_history_src_err enc B context history prompt] at hok
    exact Except.noConfusion hok
  · exact truncate_history_src_err enc B context H prompt

/-- C10: neither `_truncate_history` nor `make_response` mutates the caller's
history: in the store model, the list object at the caller's address reads the
same after either call as before — the truncator pops only the fresh copy
allocated by `history[:]`, despite the source comment asserting reliance on a
shared reference. -/
theorem history_not_mutated (enc : String → Nat) (settings : Settings)
    (stream : List StreamChunk) (context : String) (histAddr : Nat)
    (prompt : String) (s0 : Store) (h : histAddr < s0.cells.length) :
    (truncate_history_st enc (max_tokens settings) context histAddr prompt
        s0).1.read histAddr = s0.read histAddr ∧
    (OpenAI_make_response_st enc settings stream context histAddr prompt
        s0).1.read histAddr = s0.read histAddr := by
  constructor
  · exact truncate_history_st_read enc (max_tokens settings) context histAddr
      prompt s0 histAddr h
  · cases hk : api_key settings with
    | error e => simp only [OpenAI_make_response_st, hk]
    | ok k =>
        simp only [OpenAI_make_response_st, hk]
        exact truncate_history_st_read enc (max_tokens settings) context
          histAddr prompt s0 histAddr h

theorem history_not_mutated_witness :
    0 < (Store.mk [[Message.mk Role.user "m1"]]).cells.length ∧
    ((truncate_history_st (fun s => s.length)
        (max_tokens (Settings.mk none none none (some "k"))) "c" 0 "p"
        (Store.mk [[Message.mk Role.user "m1"]])).1.read 0 =
      (Store.mk [[Message.mk Role.user "m1"]]).read 0 ∧
    (OpenAI_make_response_st (fun s => s.length)
        (Settings.mk none none none (some "k")) [] "c" 0 "p"
        (Store.mk [[Message.mk Role.user "m1"]])).1.read 0 =
      (Store.mk [[Message.mk Role.user "m1"]]).read 0) :=
  ⟨by decide, history_not_mutated (fun s => s.length)
    (Settings.mk none none none (some "k")) [] "c" 0 "p"
    (Store.mk [[Message.mk Role.user "m1"]]) (by decide)⟩

end Concordia
